import Mathlib

/-!
Verification of the rss-tui feed engine against its specification.

Each Rust source function is shallowly embedded as an executable Lean
definition; machine integers are modelled as `Nat`/`Int`, fallible code
as `Except`, SQLite state as explicit record passing. External library
behaviour (HTTP, URL parsing, date parsing, HTML entity decoding) is
abstracted as explicit function parameters so that the repository's own
control flow is what the theorems are about.
-/

set_option autoImplicit false

namespace RssTui

/-! ## Embedding of src/util.rs -/

/-- Models Rust `char::is_control`: the Unicode `Cc` category,
U+0000..=U+001F and U+007F..=U+009F. -/
def char_is_control (c : Char) : Bool :=
  c.toNat ≤ 0x1F || (0x7F ≤ c.toNat && c.toNat ≤ 0x9F)

/-- Embeds `is_control_or_invisible` from src/util.rs. -/
def is_control_or_invisible (c : Char) : Bool :=
  char_is_control c ||
    (c.toNat = 0x200B || c.toNat = 0x200C || c.toNat = 0x200D ||
     c.toNat = 0x200E || c.toNat = 0x200F ||
     (0x202A ≤ c.toNat && c.toNat ≤ 0x202E) ||
     c.toNat = 0x2060 ||
     (0x2061 ≤ c.toNat && c.toNat ≤ 0x2064) ||
     (0x2066 ≤ c.toNat && c.toNat ≤ 0x2069) ||
     c.toNat = 0xFEFF)

/-- The per-character closure inside `sanitize_for_display` (the
`filter_map` body): drop control/invisible characters, replace
newline/tab/carriage-return with a space, keep everything else. -/
def sanitize_step (c : Char) : Option Char :=
  if is_control_or_invisible c then
    none
  else if c = '\n' || c = '\t' || c = '\r' then
    some ' '
  else
    some c

/-- Embeds `sanitize_for_display` from src/util.rs. -/
def sanitize_for_display (s : String) : String :=
  ⟨s.data.filterMap sanitize_step⟩

/-! StatefulList: selection arithmetic from src/util.rs.
Rust `usize` subtraction panics on underflow, so `len - 1` is modelled
by a checked subtraction returning `none` exactly when it would
underflow; `next`/`previous` therefore return `none` (panic) or
`some j` (the index passed to `self.state.select(Some(j))`). -/

/-- Checked `usize` subtraction: `none` models the panic on underflow. -/
def checked_sub (a b : Nat) : Option Nat :=
  if b ≤ a then some (a - b) else none

/-- Embeds `StatefulList::next` from src/util.rs, as a function of the
items length and the current selection. -/
def stateful_list_next (len : Nat) (sel : Option Nat) : Option Nat :=
  match sel with
  | some i => (checked_sub len 1).map (fun lm1 => if i ≥ lm1 then 0 else i + 1)
  | none => some 0

/-- Embeds `StatefulList::previous` from src/util.rs. -/
def stateful_list_previous (len : Nat) (sel : Option Nat) : Option Nat :=
  match sel with
  | some i => if i = 0 then checked_sub len 1 else some (i - 1)
  | none => some 0

/-! ## Embedding of the URL normalizer (src/rss.rs, `validate_and_normalize_feed_url`)

The external `url` crate is abstracted as a parameter: `UrlLib.parse`
models `url::Url::parse` (`none` = parse error), a `ParsedUrl` carries
the pieces the repository code reads back (`url.scheme()` and
`url.to_string()`, the canonical serialization). The repository
function itself is a pure function of its input: no I/O is modelled
because none occurs. -/

structure ParsedUrl where
  scheme : String
  serialized : String

structure UrlLib where
  parse : String → Option ParsedUrl

/-- `List` analogue of Rust `str::starts_with` for a needle. -/
def starts_with : List Char → List Char → Bool
  | _, [] => true
  | [], _ :: _ => false
  | a :: as, b :: bs => a = b && starts_with as bs

/-- Substring search: models Rust `str::contains(&str)`. -/
def contains_seq : List Char → List Char → Bool
  | [], needle => needle.isEmpty
  | c :: rest, needle =>
    starts_with (c :: rest) needle || contains_seq rest needle

/-- Models Rust `str::trim` (both ends; the repository's inputs make the
ASCII whitespace characters the relevant ones, modelled by
`Char.isWhitespace`). -/
def str_trim (s : String) : String :=
  ⟨(((s.data.dropWhile Char.isWhitespace).reverse.dropWhile
      Char.isWhitespace).reverse)⟩

/-- Models Rust `trimmed.contains("://")`. -/
def has_scheme_separator (s : String) : Bool :=
  contains_seq s.data "://".data

/-- The candidate string handed to the URL parser: `https://` is
prepended when no scheme separator is present. -/
def vnf_candidate (trimmed : String) : String :=
  if has_scheme_separator trimmed then trimmed else "https://" ++ trimmed

/-- The parse-and-check-scheme tail of `validate_and_normalize_feed_url`. -/
def vnf_parse (U : UrlLib) (candidate : String) : Except String String :=
  match U.parse candidate with
  | none => .error "invalid feed url"
  | some url =>
    if url.scheme = "http" ∨ url.scheme = "https" then
      .ok url.serialized
    else
      .error ("unsupported url scheme \x27" ++ url.scheme ++
        "\x27, only http and https are allowed")

/-- Body of `validate_and_normalize_feed_url` after trimming. -/
def vnf_core (U : UrlLib) (trimmed : String) : Except String String :=
  if trimmed = "" then .error "feed url cannot be empty"
  else vnf_parse U (vnf_candidate trimmed)

/-- Embeds `validate_and_normalize_feed_url` from src/rss.rs. -/
def validate_and_normalize_feed_url (U : UrlLib) (raw : String) :
    Except String String :=
  vnf_core U (str_trim raw)

/-- Concrete URL-library model used by witnesses only. -/
def urlLibDemo : UrlLib :=
  ⟨fun s =>
    if s = "https://example.com/feed" then
      some ⟨"https", "https://example.com/feed"⟩
    else if s = "ftp://host/x" then some ⟨"ftp", "ftp://host/x"⟩
    else none⟩

/-! ## Embedding of the streaming parser (src/rss.rs, `parse_feed_streaming`)

The parser is a fold over the `quick_xml` event stream. Events are
modelled as the decoded events the Rust loop matches on (`Start`,
`Empty`, `Text`, `CData`, `End`; `Eof` is the end of the list; other
event kinds fall into the `_ => {}` arm and are omitted). A tag or
attribute name carries its raw qualified form; `local_name` is applied
inside the loop exactly as in the source. Text events carry the already
unescaped text (`e.unescape()` is `quick_xml` behaviour). The external
`html_escape` entity decoder and `diligent_date_parser` are abstracted
as the `ExternalFns` parameter. -/

inductive FeedKind where
  | Atom
  | Rss
deriving DecidableEq

structure IncomingEntry where
  title : Option String
  author : Option String
  pub_date : Option Int
  description : Option String
  content : Option String
  link : Option String
deriving DecidableEq

/-- The all-`None` scratch entry the Rust code resets on entry/item start. -/
def IncomingEntry.empty : IncomingEntry := ⟨none, none, none, none, none, none⟩

structure IncomingFeed where
  title : Option String
  feed_link : Option String
  link : Option String
  feed_kind : FeedKind
  latest_etag : Option String
deriving DecidableEq

structure FeedAndEntries where
  feed : IncomingFeed
  entries : List IncomingEntry
deriving DecidableEq

inductive XmlEvent where
  | startTag (name : String) (attrs : List (String × String))
  | emptyTag (name : String) (attrs : List (String × String))
  | textEv (s : String)
  | cdataEv (s : String)
  | endTag (name : String)
deriving DecidableEq

/-- External library behaviour threaded through the parser:
`decode_html_entities` models `html_escape::decode_html_entities_to_string`,
`parse_datetime` models the source's `parse_datetime` wrapper around
`diligent_date_parser` (unparseable date gives `none`, not an error). -/
structure ExternalFns where
  decode_html_entities : String → String
  parse_datetime : String → Option Int

/-- Demo instantiation of the external functions, used by witnesses. -/
def extId : ExternalFns := ⟨fun s => s, fun _ => none⟩

/-- The `splitn(2, ':').last().unwrap_or(name)` fallback of `local_name`:
everything after the first colon, or the whole name when there is none. -/
def after_first_colon (cs : List Char) : List Char :=
  match cs.findIdx? (fun c => c = ':') with
  | some i => cs.drop (i + 1)
  | none => cs

/-- Embeds `local_name` from src/rss.rs: strip a Clark-notation prefix
(`{uri}entry` → `entry`, only when something follows the brace) or a
namespace prefix (`atom:entry` → `entry`). -/
def local_name (s : String) : String :=
  let cs := s.data
  match cs.findIdx? (fun c => c = '}') with
  | some i =>
    if i + 1 < cs.length then ⟨cs.drop (i + 1)⟩ else ⟨after_first_colon cs⟩
  | none => ⟨after_first_colon cs⟩

/-- The mutable scratch state of the Rust parsing loop. -/
structure PState where
  feed_type : Option FeedKind
  feed_title : Option String
  feed_link : Option String
  entries : List IncomingEntry
  in_item : Bool
  in_entry : Bool
  current_entry : IncomingEntry
  current_text : String
  current_link_href : Option String
deriving DecidableEq

def PState.init : PState :=
  ⟨none, none, none, [], false, false, .empty, "", none⟩

/-- The feed-kind a tag's local name detects, if any. -/
def kind_of_name (name : String) : Option FeedKind :=
  if name = "feed" then some .Atom
  else if name = "rss" ∨ name = "RDF" then some .Rss
  else none

/-- The `if feed_type.is_none() { match name ... }` detection step. -/
def detect_feed_type (st : PState) (name : String) : PState :=
  if st.feed_type.isNone then
    match kind_of_name name with
    | some k => { st with feed_type := some k }
    | none => st
  else st

/-- `href` attribute lookup on a `link` tag: exact key `"href"` first
(`try_get_attribute`), then a scan of all attributes by local name. -/
def find_href (attrs : List (String × String)) : Option String :=
  match attrs.find? (fun a => a.1 == "href") with
  | some a => some a.2
  | none => (attrs.find? (fun a => local_name a.1 == "href")).map (fun a => a.2)

/-- The scalar-field tags whose start clears the text buffer. -/
def scalar_tags : List String :=
  ["title", "description", "content", "summary", "author", "name",
   "pubDate", "published", "updated", "dc:date"]

/-- Handler of `Event::Start` (after `local_name`): feed-kind detection
followed by the per-tag match. -/
def process_start (st : PState) (name : String)
    (attrs : List (String × String)) : PState :=
  let st := detect_feed_type st name
  if name = "item" then
    { st with in_item := true, current_entry := .empty }
  else if name = "entry" then
    { st with in_entry := true, current_entry := .empty }
  else if name = "link" then
    { st with current_link_href := find_href attrs, current_text := "" }
  else if scalar_tags.contains name then
    { st with current_text := "" }
  else st

/-- Handler of `Event::Empty` (self-closing tag): only `link` is acted
on, using the `href` attribute; entry links win over feed links, and a
feed-level link is stored only if none was found yet. -/
def process_empty (st : PState) (name : String)
    (attrs : List (String × String)) : PState :=
  if name = "link" then
    match find_href attrs with
    | some h =>
      if st.in_item || st.in_entry then
        { st with current_entry := { st.current_entry with link := some h } }
      else if st.feed_link.isNone then
        { st with feed_link := some h }
      else st
    | none => st
  else st

/-! The `Event::End` match arms, one helper per arm (the helpers carry
the arm bodies verbatim; `process_end` is the arm dispatch). -/

/-- `End` arm for `item`. -/
def end_item (st : PState) : PState :=
  if st.in_item then
    { st with entries := st.entries ++ [st.current_entry], in_item := false }
  else st

/-- `End` arm for `entry`. -/
def end_entry (st : PState) : PState :=
  if st.in_entry then
    { st with entries := st.entries ++ [st.current_entry], in_entry := false }
  else st

/-- `End` arm for `title`. -/
def end_title (ext : ExternalFns) (st : PState) : PState :=
  let st1 :=
    if st.current_text ≠ "" then
      let decoded := ext.decode_html_entities st.current_text
      if st.in_item || st.in_entry then
        { st with current_entry := { st.current_entry with title := some decoded } }
      else if st.feed_title.isNone then
        { st with feed_title := some decoded }
      else st
    else st
  { st1 with current_text := "" }

/-- `End` arm for `link`: inside an item/entry the captured `href` wins
over the text; at feed level only the text is consulted, first-wins. -/
def end_link (st : PState) : PState :=
  let st1 :=
    if st.in_item || st.in_entry then
      match st.current_link_href with
      | some href =>
        { st with current_entry := { st.current_entry with link := some href },
                  current_link_href := none }
      | none =>
        if st.current_text ≠ "" then
          { st with current_entry := { st.current_entry with link := some st.current_text } }
        else st
    else if st.feed_link.isNone ∧ st.current_text ≠ "" then
      { st with feed_link := some st.current_text }
    else st
  { st1 with current_text := "" }

/-- `End` arm for `description`. -/
def end_description (ext : ExternalFns) (st : PState) : PState :=
  let st1 :=
    if st.in_item ∧ st.current_text ≠ "" then
      { st with current_entry :=
          { st.current_entry with description := some (ext.decode_html_entities st.current_text) } }
    else st
  { st1 with current_text := "" }

/-- `End` arm for `content`. -/
def end_content (ext : ExternalFns) (st : PState) : PState :=
  let st1 :=
    if (st.in_item || st.in_entry) ∧ st.current_text ≠ "" then
      { st with current_entry :=
          { st.current_entry with content := some (ext.decode_html_entities st.current_text) } }
    else st
  { st1 with current_text := "" }

/-- `End` arm for `summary` (content fallback). -/
def end_summary (ext : ExternalFns) (st : PState) : PState :=
  let st1 :=
    if st.in_entry ∧ st.current_entry.content.isNone ∧ st.current_text ≠ "" then
      { st with current_entry :=
          { st.current_entry with content := some (ext.decode_html_entities st.current_text) } }
    else st
  { st1 with current_text := "" }

/-- `End` arm for `author`/`name` (first resolution wins). -/
def end_author (ext : ExternalFns) (st : PState) : PState :=
  let st1 :=
    if (st.in_item || st.in_entry) ∧ st.current_entry.author.isNone ∧
        st.current_text ≠ "" then
      { st with current_entry :=
          { st.current_entry with author := some (ext.decode_html_entities st.current_text) } }
    else st
  { st1 with current_text := "" }

/-- `End` arm for the date tags. -/
def end_pub_date (ext : ExternalFns) (st : PState) : PState :=
  let st1 :=
    if (st.in_item || st.in_entry) ∧ st.current_entry.pub_date.isNone ∧
        st.current_text ≠ "" then
      { st with current_entry :=
          { st.current_entry with pub_date := ext.parse_datetime st.current_text } }
    else st
  { st1 with current_text := "" }

/-- `End` arm for unknown tags: the text buffer is cleared. -/
def end_other (st : PState) : PState :=
  { st with current_text := "" }

/-- Handler of `Event::End` (after `local_name`). -/
def process_end (ext : ExternalFns) (st : PState) (name : String) : PState :=
  if name = "item" then end_item st
  else if name = "entry" then end_entry st
  else if name = "title" then end_title ext st
  else if name = "link" then end_link st
  else if name = "description" then end_description ext st
  else if name = "content" then end_content ext st
  else if name = "summary" then end_summary ext st
  else if name = "author" ∨ name = "name" then end_author ext st
  else if name = "pubDate" ∨ name = "published" ∨ name = "updated" ∨
      name = "dc:date" then end_pub_date ext st
  else end_other st

/-- One iteration of the Rust event loop. -/
def process_event (ext : ExternalFns) (st : PState) (ev : XmlEvent) : PState :=
  match ev with
  | .startTag raw attrs => process_start st (local_name raw) attrs
  | .emptyTag raw attrs => process_empty st (local_name raw) attrs
  | .textEv s => { st with current_text := st.current_text ++ s }
  | .cdataEv s => { st with current_text := st.current_text ++ s }
  | .endTag raw => process_end ext st (local_name raw)

/-- Embeds `parse_feed_streaming` from src/rss.rs, over the decoded
event stream: fold the loop body, then fail with the feed-type error
when no kind was detected, else assemble the staging bundle with
`feed_link` set to the fetch URL. -/
def parse_final (ext : ExternalFns) (events : List XmlEvent) : PState :=
  events.foldl (process_event ext) PState.init

def parse_feed_streaming (ext : ExternalFns) (events : List XmlEvent)
    (url : String) : Except String FeedAndEntries :=
  match (parse_final ext events).feed_type with
  | none => .error "could not determine feed type"
  | some k =>
    .ok ⟨⟨(parse_final ext events).feed_title, some url,
          (parse_final ext events).feed_link, k, none⟩,
        (parse_final ext events).entries⟩

/-- The feed kind an event alone would detect. -/
def kind_of_event : XmlEvent → Option FeedKind
  | .startTag raw _ => kind_of_name (local_name raw)
  | _ => none

/-- The kind detected by the first kind-bearing start tag of the stream. -/
def first_feed_kind_tag (events : List XmlEvent) : Option FeedKind :=
  events.findSome? kind_of_event

/-! ## Embedding of the persistence layer (src/rss.rs)

SQLite state is a record of the two tables plus the AUTOINCREMENT
counters. Timestamps are `Int` (seconds); each operation that calls
`Utc::now()` takes an explicit `now` argument. `i64` row ids are `Int`.
Fallible SQL calls return `Except String`. -/

structure FeedRow where
  id : Int
  title : Option String
  feed_link : Option String
  link : Option String
  feed_kind : FeedKind
  refreshed_at : Option Int
  inserted_at : Int
  updated_at : Int
  latest_etag : Option String
deriving DecidableEq

structure EntryRow where
  id : Int
  feed_id : Int
  title : Option String
  author : Option String
  pub_date : Option Int
  description : Option String
  content : Option String
  link : Option String
  read_at : Option Int
  inserted_at : Int
  updated_at : Int
deriving DecidableEq

structure DB where
  feeds : List FeedRow
  entries : List EntryRow
  next_feed_id : Int
  next_entry_id : Int
deriving DecidableEq

/-- `ReadMode` from src/modes.rs. -/
inductive ReadMode where
  | ShowRead
  | ShowUnread
  | All
deriving DecidableEq

/-- The `read_at` predicate appended to queries per `ReadMode`
(`IS NOT NULL` / `IS NULL` / none). -/
def read_mode_keeps (m : ReadMode) (read_at : Option Int) : Bool :=
  match m with
  | .ShowRead => read_at.isSome
  | .ShowUnread => read_at.isNone
  | .All => true

/-- Embeds `get_entries_links`: the `link` column of the feed's entries
under the read-mode filter. The SQL `ORDER BY pub_date DESC,
inserted_at DESC` is elided: the caller modelled here
(`refresh_feed`) pours the result into a `HashSet`. -/
def get_entries_links (db : DB) (m : ReadMode) (fid : Int) :
    List (Option String) :=
  (db.entries.filter
    (fun e => e.feed_id == fid && read_mode_keeps m e.read_at)).map
    (fun e => e.link)

/-- Embeds `in_transaction`: run the closure against the connection
state; commit its writes on `Ok`, roll back (the connection keeps the
pre-transaction state, as a dropped uncommitted `rusqlite` transaction
rolls back) on `Err`. The pair is (returned result, connection state
after the call). -/
def in_transaction {R : Type} (db : DB)
    (f : DB → Except String (DB × R)) : Except String R × DB :=
  match f db with
  | .ok (db2, r) => (.ok r, db2)
  | .error e => (.error e, db)

/-- A multi-statement operation: each statement reads and writes the
transaction's view of the database or fails. -/
def run_steps (db : DB) : List (DB → Except String DB) → Except String DB
  | [] => .ok db
  | s :: rest =>
    match s db with
    | .ok db2 => run_steps db2 rest
    | .error e => .error e

/-- A step list packaged as an `in_transaction` closure. -/
def steps_closure (steps : List (DB → Except String DB)) :
    DB → Except String (DB × Unit) :=
  fun db => (run_steps db steps).map (fun d => (d, ()))

/-- Row built by the `INSERT INTO entries ...` of `add_entries_to_feed`:
`read_at` NULL, `inserted_at` from its `DEFAULT CURRENT_TIMESTAMP`,
`updated_at` bound to the loop's single `now`. -/
def entry_row_of (fid : Int) (now : Int) (id : Int) (e : IncomingEntry) :
    EntryRow :=
  ⟨id, fid, e.title, e.author, e.pub_date, e.description, e.content,
   e.link, none, now, now⟩

/-- Embeds `add_entries_to_feed`: one insert per incoming entry, ids
assigned by AUTOINCREMENT. -/
def add_entries_to_feed (db : DB) (fid : Int)
    (entries : List IncomingEntry) (now : Int) : DB :=
  { db with
    entries := db.entries ++
      entries.enum.map (fun p => entry_row_of fid now (db.next_entry_id + p.1) p.2),
    next_entry_id := db.next_entry_id + entries.length }

/-- Embeds `update_feed_refreshed_at`. -/
def update_feed_refreshed_at (db : DB) (fid : Int) (now : Int) : DB :=
  { db with feeds := (db.feeds.map
      (fun f => if f.id = fid then { f with refreshed_at := some now } else f)) }

/-- Embeds `update_feed_etag`. -/
def update_feed_etag (db : DB) (fid : Int) (latest_etag : Option String) : DB :=
  { db with feeds := (db.feeds.map
      (fun f => if f.id = fid then { f with latest_etag := latest_etag } else f)) }

/-- `ENTRY_RETENTION_DAYS` from src/rss.rs. -/
def ENTRY_RETENTION_DAYS : Nat := 365

/-- `Utc::now() - chrono::Duration::days(max_age_days)`, in seconds. -/
def retention_cutoff (now : Int) (max_age_days : Nat) : Int :=
  now - 86400 * (max_age_days : Int)

/-- Embeds `prune_old_entries_for_feed`: delete the feed's entries whose
`COALESCE(pub_date, inserted_at)` is before the cutoff. -/
def prune_old_entries_for_feed (db : DB) (fid : Int) (max_age_days : Nat)
    (now : Int) : DB :=
  { db with entries := (db.entries.filter
      (fun e => !(e.feed_id == fid &&
        decide (e.pub_date.getD e.inserted_at < retention_cutoff now max_age_days)))) }

/-- Embeds `get_feed_url`: `SELECT feed_link FROM feeds WHERE id=?1`
read as a non-null `String` (a NULL column or missing row is a
`rusqlite` error). -/
def get_feed_url (db : DB) (fid : Int) : Except String String :=
  match db.feeds.find? (fun f => f.id == fid) with
  | none => .error "QueryReturnedNoRows"
  | some f =>
    match f.feed_link with
    | some l => .ok l
    | none => .error "InvalidColumnType"

/-- Embeds `get_feed_latest_etag` (nullable column). -/
def get_feed_latest_etag (db : DB) (fid : Int) : Except String (Option String) :=
  match db.feeds.find? (fun f => f.id == fid) with
  | none => .error "QueryReturnedNoRows"
  | some f => .ok f.latest_etag

/-- Embeds `create_feed`: `INSERT INTO feeds (title, link, feed_link,
feed_kind) ... RETURNING id`; the unique index `feeds_feed_link` makes a
duplicate non-NULL `feed_link` fail; the remaining columns take their
defaults (`latest_etag` NULL — subscribe does not store the etag). -/
def create_feed (db : DB) (feed : IncomingFeed) (now : Int) :
    Except String (DB × Int) :=
  let dup :=
    match feed.feed_link with
    | some l => db.feeds.any (fun f => f.feed_link == some l)
    | none => false
  if dup then .error "UNIQUE constraint failed: feeds.feed_link"
  else
    .ok ({ db with
            feeds := db.feeds ++
              [⟨db.next_feed_id, feed.title, feed.feed_link, feed.link,
                feed.feed_kind, none, now, now, none⟩],
            next_feed_id := db.next_feed_id + 1 },
         db.next_feed_id)

/-- Metadata projection of an entry row (`EntryMetadata` in src/rss.rs;
the author/updated_at columns are commented out in the source). -/
structure EntryMetadata where
  id : Int
  feed_id : Int
  title : Option String
  pub_date : Option Int
  link : Option String
  read_at : Option Int
  inserted_at : Int
deriving DecidableEq

def entry_metadata_of_row (e : EntryRow) : EntryMetadata :=
  ⟨e.id, e.feed_id, e.title, e.pub_date, e.link, e.read_at, e.inserted_at⟩

/-- Embeds `get_entry_meta` (`query_row` reads the first matching row). -/
def get_entry_meta (db : DB) (eid : Int) : Except String EntryMetadata :=
  match db.entries.find? (fun e => e.id == eid) with
  | none => .error "QueryReturnedNoRows"
  | some e => .ok (entry_metadata_of_row e)

/-- Embeds `EntryMetadata::mark_as_read`:
`UPDATE entries SET read_at = ?2 WHERE id = ?1`. -/
def mark_as_read (db : DB) (eid : Int) (now : Int) : DB :=
  { db with entries := (db.entries.map
      (fun e => if e.id = eid then { e with read_at := some now } else e)) }

/-- Embeds `EntryMetadata::mark_as_unread`:
`UPDATE entries SET read_at = NULL WHERE id = ?1`. -/
def mark_as_unread (db : DB) (eid : Int) : DB :=
  { db with entries := (db.entries.map
      (fun e => if e.id = eid then { e with read_at := none } else e)) }

/-- Embeds `EntryMetadata::toggle_read`: branch on the in-memory
`read_at` of the metadata value the caller holds. -/
def toggle_read (meta : EntryMetadata) (db : DB) (now : Int) : DB :=
  if meta.read_at.isNone then mark_as_read db meta.id now
  else mark_as_unread db meta.id

/-- Embeds `count_unread_entries`:
`SELECT COUNT(*) FROM entries WHERE feed_id = ?1 AND read_at IS NULL`. -/
def count_unread_entries (db : DB) (fid : Int) : Nat :=
  (db.entries.filter (fun e => e.feed_id == fid && e.read_at.isNone)).length

/-! ## Embedding of the conditional fetcher and sync engine (src/rss.rs)

The network is abstracted as a function from (url, optional ETag sent
as `If-None-Match`) to the server's response; the response body is the
decoded XML event stream (transport failures and undecodable bytes,
which abort earlier, are outside these claims). -/

structure HttpResponse where
  status : Nat
  headers : List (String × String)
  body : List XmlEvent

inductive FeedResponse where
  | CacheMiss (fa : FeedAndEntries)
  | CacheHit
deriving DecidableEq

/-- Embeds `http_status_error_message` (same match order as the source:
specific codes, then 5xx, then 3xx, then the default). -/
def http_status_error_message (status : Nat) (url : String) : String :=
  if status = 400 then
    s!"bad request (400) fetching feed {url}. the server rejected the request - check the url"
  else if status = 401 then
    s!"unauthorized (401) fetching feed {url}. authentication may be required"
  else if status = 403 then
    s!"forbidden (403) fetching feed {url}. access denied - the server refused the request"
  else if status = 404 then
    s!"not found (404) fetching feed {url}. the feed url may be incorrect or the feed may have been removed"
  else if status = 408 then
    s!"request timeout (408) fetching feed {url}. the server took too long to respond"
  else if status = 429 then
    s!"too many requests (429) fetching feed {url}. rate limited - wait a moment and try again"
  else if 500 ≤ status ∧ status ≤ 599 then
    s!"server error ({status}) fetching feed {url}. this could be temporary - check the site in a browser and try again later"
  else if 300 ≤ status ∧ status ≤ 399 then
    s!"redirect error ({status}). the server returned an unexpected redirect for feed {url}"
  else
    s!"unexpected status code {status} fetching feed {url}"

/-- The case-insensitive `ETag` header extraction of `fetch_feed`. -/
def lookup_etag (headers : List (String × String)) : Option String :=
  (headers.find? (fun h => h.1.toLower == "etag")).map (fun h => h.2)

/-- `FeedAndEntries::set_latest_etag`. -/
def set_latest_etag (fa : FeedAndEntries) (etag : Option String) :
    FeedAndEntries :=
  { fa with feed := { fa.feed with latest_etag := etag } }

/-- Embeds `fetch_feed` given the server's response: 200 parses the body
and attaches the discovered ETag (CacheMiss), 304 is CacheHit, anything
else is the classified status error. -/
def fetch_feed (ext : ExternalFns) (resp : HttpResponse) (url : String) :
    Except String FeedResponse :=
  if resp.status = 200 then
    match parse_feed_streaming ext resp.body url with
    | .error e =>
      .error (s!"failed to parse feed from {url}. the response is not valid rss or atom xml" ++ ": " ++ e)
    | .ok fa => .ok (.CacheMiss (set_latest_etag fa (lookup_etag resp.headers)))
  else if resp.status = 304 then .ok .CacheHit
  else .error (http_status_error_message resp.status url)

/-- The link-set arithmetic of `refresh_feed`'s CacheMiss branch:
remote links minus stored links, then filter the fetched entries down to
those whose link is in the difference (link-less entries are dropped). -/
def refresh_items_to_add (remote_items : List IncomingEntry)
    (local_links : List (Option String)) : List IncomingEntry :=
  let remote_items_links : List String :=
    remote_items.filterMap (fun item => item.link)
  let local_entries_links : List String := local_links.filterMap id
  let difference : List String :=
    remote_items_links.filter (fun l => !(local_entries_links.contains l))
  remote_items.filter (fun item =>
    match item.link with
    | some l => difference.contains l
    | none => false)

/-- Embeds `refresh_feed`: conditional fetch with the stored ETag; on
CacheMiss insert the deduplicated entries, update `refreshed_at`, store
the new ETag and prune, in one transaction; on CacheHit update
`refreshed_at` and prune, in one transaction. -/
def refresh_feed (ext : ExternalFns)
    (net : String → Option String → HttpResponse) (db : DB) (now : Int)
    (fid : Int) : Except String DB := do
  let feed_url ← get_feed_url db fid
  let current_etag ← get_feed_latest_etag db fid
  let remote ← fetch_feed ext (net feed_url current_etag) feed_url
  match remote with
  | .CacheMiss remote_feed =>
    let items_to_add :=
      refresh_items_to_add remote_feed.entries (get_entries_links db .All fid)
    match in_transaction db (fun d => do
        let d := add_entries_to_feed d fid items_to_add now
        let d := update_feed_refreshed_at d fid now
        let d := update_feed_etag d fid remote_feed.feed.latest_etag
        let d := prune_old_entries_for_feed d fid ENTRY_RETENTION_DAYS now
        .ok (d, ())) with
    | (.ok _, db2) => .ok db2
    | (.error e, _) => .error e
  | .CacheHit =>
    match in_transaction db (fun d => do
        let d := update_feed_refreshed_at d fid now
        let d := prune_old_entries_for_feed d fid ENTRY_RETENTION_DAYS now
        .ok (d, ())) with
    | (.ok _, db2) => .ok db2
    | (.error e, _) => .error e

/-- Embeds `subscribe_to_feed`: fetch with no ETag; a CacheHit is the
logic error; a CacheMiss creates the feed row and bulk-inserts all
entries inside one transaction and returns the new id. -/
def subscribe_to_feed (ext : ExternalFns)
    (net : String → Option String → HttpResponse) (db : DB) (now : Int)
    (url : String) : Except String (Int × DB) := do
  let resp ← fetch_feed ext (net url none) url
  match resp with
  | .CacheMiss fa =>
    match in_transaction db (fun d => do
        let (d, feed_id) ← create_feed d fa.feed now
        let d := add_entries_to_feed d feed_id fa.entries now
        .ok (d, feed_id)) with
    | (.ok feed_id, db2) => .ok (feed_id, db2)
    | (.error e, _) => .error e
  | .CacheHit =>
    .error "Did not expect feed to be cached in this instance as we did not pass an etag"

/-! ## Theorems for claims C9 and C10 -/

/-- C10: every character surviving `sanitize_for_display` is neither a
control character nor one of the enumerated invisible code points;
`\n`, `\t`, `\r` are removed entirely (they are control characters, so
the filter drops them before the space-replacement branch, which is
therefore unreachable: a surviving character is always the input
character itself). -/
theorem sanitize_for_display_no_control_and_newline_removed :
    (∀ s : String, ∀ c ∈ (sanitize_for_display s).data,
      is_control_or_invisible c = false) ∧
    (∀ c : Char, (c = '\n' ∨ c = '\t' ∨ c = '\r') → sanitize_step c = none) ∧
    sanitize_for_display "a\nb\tc\rd" = "abcd" ∧
    (∀ c o : Char, sanitize_step c = some o → o = c) := by
  refine ⟨?_, ?_, ?_, ?_⟩
  · intro s c hc
    rcases List.mem_filterMap.mp hc with ⟨a, _, ha⟩
    unfold sanitize_step at ha
    by_cases h1 : is_control_or_invisible a = true
    · simp [h1] at ha
    · rw [eq_false_of_ne_true h1] at ha
      simp only [if_false, Bool.false_eq_true] at ha
      by_cases h2 : (a = '\n' || a = '\t' || a = '\r') = true
      · -- this branch would give c = ' ', but a would be a control char
        rcases Bool.or_eq_true_iff.mp h2 with h3 | h3
        · rcases Bool.or_eq_true_iff.mp h3 with h4 | h4 <;>
            (first
              | (have : a = '\n' := by exact decide_eq_true_eq.mp h4
                 subst this; simp [is_control_or_invisible, char_is_control] at h1)
              | (have : a = '\t' := by exact decide_eq_true_eq.mp h4
                 subst this; simp [is_control_or_invisible, char_is_control] at h1))
        · have : a = '\r' := by exact decide_eq_true_eq.mp h3
          subst this; simp [is_control_or_invisible, char_is_control] at h1
      · rw [eq_false_of_ne_true h2] at ha
        simp only [if_false, Bool.false_eq_true, Option.some.injEq] at ha
        subst ha
        exact eq_false_of_ne_true h1
  · intro c hc
    rcases hc with h | h | h <;> subst h <;> rfl
  · rfl
  · intro c o h
    unfold sanitize_step at h
    by_cases h1 : is_control_or_invisible c = true
    · simp [h1] at h
    · rw [eq_false_of_ne_true h1] at h
      simp only [if_false, Bool.false_eq_true] at h
      by_cases h2 : (c = '\n' || c = '\t' || c = '\r') = true
      · rcases Bool.or_eq_true_iff.mp h2 with h3 | h3
        · rcases Bool.or_eq_true_iff.mp h3 with h4 | h4 <;>
            (first
              | (have : c = '\n' := by exact decide_eq_true_eq.mp h4
                 subst this; simp [is_control_or_invisible, char_is_control] at h1)
              | (have : c = '\t' := by exact decide_eq_true_eq.mp h4
                 subst this; simp [is_control_or_invisible, char_is_control] at h1))
        · have : c = '\r' := by exact decide_eq_true_eq.mp h3
          subst this; simp [is_control_or_invisible, char_is_control] at h1
      · rw [eq_false_of_ne_true h2] at h
        simp only [if_false, Bool.false_eq_true, Option.some.injEq] at h
        exact h.symm

/-- C9: on a non-empty items vector `next`/`previous` always succeed and
select an in-bounds index, wrapping last→0 and 0→last; with an empty
vector and a selection present, `next` hits the underflowing
`len - 1` for every selected index and `previous` hits it for selected
index 0 (the selected state `reset` produces), so the wrap branch is
reachable without panic only when the vector is non-empty. -/
theorem stateful_list_wrapping_and_underflow :
    (∀ len i : Nat, 0 < len → i < len →
      stateful_list_next len (some i) =
        some (if i = len - 1 then 0 else i + 1) ∧
      (if i = len - 1 then 0 else i + 1) < len) ∧
    (∀ len i : Nat, 0 < len → i < len →
      stateful_list_previous len (some i) =
        some (if i = 0 then len - 1 else i - 1) ∧
      (if i = 0 then len - 1 else i - 1) < len) ∧
    (∀ len : Nat, stateful_list_next len none = some 0 ∧
      stateful_list_previous len none = some 0) ∧
    (∀ i : Nat, stateful_list_next 0 (some i) = none) ∧
    stateful_list_previous 0 (some 0) = none := by
  refine ⟨?_, ?_, ?_, ?_, ?_⟩
  · intro len i hlen hi
    constructor
    · simp only [stateful_list_next, checked_sub]
      rw [if_pos (show 1 ≤ len from hlen)]
      show some (if len - 1 ≤ i then 0 else i + 1) =
        some (if i = len - 1 then 0 else i + 1)
      by_cases h : i = len - 1
      · rw [if_pos (show len - 1 ≤ i by omega), if_pos h]
      · rw [if_neg (show ¬ len - 1 ≤ i by omega), if_neg h]
    · by_cases h : i = len - 1
      · rw [if_pos h]; exact hlen
      · rw [if_neg h]; omega
  · intro len i hlen hi
    constructor
    · simp only [stateful_list_previous, checked_sub]
      by_cases h : i = 0
      · rw [if_pos h, if_pos (show 1 ≤ len from hlen), if_pos h]
      · rw [if_neg h, if_neg h]
    · by_cases h : i = 0
      · rw [if_pos h]; omega
      · rw [if_neg h]; omega
  · intro len; exact ⟨rfl, rfl⟩
  · intro i; rfl
  · rfl

/-- Witness for C9 at concrete inputs: a 3-element list wraps 2→0 on
`next` and 0→2 on `previous`. -/
theorem stateful_list_wrapping_and_underflow_witness :
    stateful_list_next 3 (some 2) = some 0 ∧
    stateful_list_previous 3 (some 0) = some 2 := by
  have h1 := stateful_list_wrapping_and_underflow.1 3 2 (by decide) (by decide)
  have h2 := stateful_list_wrapping_and_underflow.2.1 3 0 (by decide) (by decide)
  exact ⟨by simpa using h1.1, by simpa using h2.1⟩

/-- Witness for C10's hypothesised conjunct at a concrete character. -/
theorem sanitize_for_display_no_control_witness :
    sanitize_step '\n' = none := by
  exact sanitize_for_display_no_control_and_newline_removed.2.1 '\n' (Or.inl rfl)

/-! ## Theorem for claim C2 -/

/-- C2: a multi-statement operation run through `in_transaction` is
all-or-nothing — if any step errors the connection is left with the
pre-transaction database (rollback) and the error is returned; if every
step succeeds all writes are committed. -/
theorem in_transaction_all_or_nothing :
    (∀ (db : DB) (steps : List (DB → Except String DB)) (e : String),
      run_steps db steps = .error e →
      in_transaction db (steps_closure steps) = (.error e, db)) ∧
    (∀ (db : DB) (steps : List (DB → Except String DB)) (db2 : DB),
      run_steps db steps = .ok db2 →
      in_transaction db (steps_closure steps) = (.ok (), db2)) := by
  constructor
  · intro db steps e h
    simp [in_transaction, steps_closure, h, Except.map]
  · intro db steps db2 h
    simp [in_transaction, steps_closure, h, Except.map]

/-- Witness for C2: a concrete two-step operation whose second statement
fails leaves the empty database unchanged. -/
theorem in_transaction_all_or_nothing_witness :
    in_transaction (⟨[], [], 1, 1⟩ : DB)
      (steps_closure [fun d => .ok d, fun _ => .error "syntax error"]) =
      (.error "syntax error", (⟨[], [], 1, 1⟩ : DB)) :=
  in_transaction_all_or_nothing.1 ⟨[], [], 1, 1⟩
    [fun d => .ok d, fun _ => .error "syntax error"] "syntax error" rfl

/-! ## Theorem for claim C4 -/

/-- C4: `validate_and_normalize_feed_url` trims its input and fails when
the trimmed input is empty; it prepends `https://` when no `://` is
present; a failed parse is a validation error; any scheme other than
http/https is rejected with the scheme error; on success the parser's
canonical serialization is returned, so an input the parser serializes
to itself (such as `https://example.com/feed`) comes back unchanged.
The function is pure: it is a function of its input and the URL parser
only. -/
theorem validate_and_normalize_feed_url_spec :
    (∀ (U : UrlLib) (raw : String),
      validate_and_normalize_feed_url U raw = vnf_core U (str_trim raw)) ∧
    (∀ (U : UrlLib) (raw : String), str_trim raw = "" →
      validate_and_normalize_feed_url U raw = .error "feed url cannot be empty") ∧
    (∀ t : String, has_scheme_separator t = false →
      vnf_candidate t = "https://" ++ t) ∧
    (∀ (U : UrlLib) (c : String), U.parse c = none →
      vnf_parse U c = .error "invalid feed url") ∧
    (∀ (U : UrlLib) (c : String) (u : ParsedUrl), U.parse c = some u →
      u.scheme ≠ "http" → u.scheme ≠ "https" →
      vnf_parse U c = .error ("unsupported url scheme \x27" ++ u.scheme ++
        "\x27, only http and https are allowed")) ∧
    (∀ (U : UrlLib) (c : String) (u : ParsedUrl), U.parse c = some u →
      (u.scheme = "http" ∨ u.scheme = "https") →
      vnf_parse U c = .ok u.serialized) ∧
    (∀ U : UrlLib,
      U.parse "https://example.com/feed" =
        some ⟨"https", "https://example.com/feed"⟩ →
      validate_and_normalize_feed_url U "https://example.com/feed" =
        .ok "https://example.com/feed") := by
  refine ⟨fun U raw => rfl, ?_, ?_, ?_, ?_, ?_, ?_⟩
  · intro U raw h
    simp [validate_and_normalize_feed_url, vnf_core, h]
  · intro t h
    simp [vnf_candidate, h]
  · intro U c h
    simp [vnf_parse, h]
  · intro U c u h h1 h2
    simp [vnf_parse, h, h1, h2]
  · intro U c u h h1
    simp [vnf_parse, h, h1]
  · intro U h
    have h1 : validate_and_normalize_feed_url U "https://example.com/feed" =
        vnf_parse U "https://example.com/feed" := rfl
    rw [h1]
    simp [vnf_parse, h]

/-- Witness for C4 at the concrete URL-library model. -/
theorem validate_and_normalize_feed_url_spec_witness :
    validate_and_normalize_feed_url urlLibDemo "https://example.com/feed" =
      .ok "https://example.com/feed" :=
  validate_and_normalize_feed_url_spec.2.2.2.2.2.2 urlLibDemo rfl

/-! ## Parser helper lemmas (shared) -/

theorem detect_feed_type_feed_type (st : PState) (name : String) :
    (detect_feed_type st name).feed_type = st.feed_type.or (kind_of_name name) := by
  cases h : st.feed_type with
  | none =>
    cases hk : kind_of_name name with
    | some k => simp [detect_feed_type, h, hk]
    | none => simp [detect_feed_type, h, hk]
  | some k => simp [detect_feed_type, h]

theorem process_start_feed_type (st : PState) (name : String)
    (attrs : List (String × String)) :
    (process_start st name attrs).feed_type = (detect_feed_type st name).feed_type := by
  unfold process_start
  dsimp only
  split_ifs <;> rfl

theorem process_empty_feed_type (st : PState) (name : String)
    (attrs : List (String × String)) :
    (process_empty st name attrs).feed_type = st.feed_type := by
  unfold process_empty
  by_cases h : name = "link"
  · rw [if_pos h]
    cases find_href attrs with
    | some hh =>
      dsimp only
      split_ifs <;> rfl
    | none => rfl
  · rw [if_neg h]

theorem end_item_feed_type (st : PState) :
    (end_item st).feed_type = st.feed_type := by
  unfold end_item; split_ifs <;> rfl

theorem end_entry_feed_type (st : PState) :
    (end_entry st).feed_type = st.feed_type := by
  unfold end_entry; split_ifs <;> rfl

theorem end_title_feed_type (ext : ExternalFns) (st : PState) :
    (end_title ext st).feed_type = st.feed_type := by
  unfold end_title; dsimp only; split_ifs <;> rfl

theorem end_link_feed_type (st : PState) :
    (end_link st).feed_type = st.feed_type := by
  unfold end_link; dsimp only
  split_ifs <;> first | rfl | (cases st.current_link_href <;> rfl)

theorem end_description_feed_type (ext : ExternalFns) (st : PState) :
    (end_description ext st).feed_type = st.feed_type := by
  unfold end_description; dsimp only; split_ifs <;> rfl

theorem end_content_feed_type (ext : ExternalFns) (st : PState) :
    (end_content ext st).feed_type = st.feed_type := by
  unfold end_content; dsimp only; split_ifs <;> rfl

theorem end_summary_feed_type (ext : ExternalFns) (st : PState) :
    (end_summary ext st).feed_type = st.feed_type := by
  unfold end_summary; dsimp only; split_ifs <;> rfl

theorem end_author_feed_type (ext : ExternalFns) (st : PState) :
    (end_author ext st).feed_type = st.feed_type := by
  unfold end_author; dsimp only; split_ifs <;> rfl

theorem end_pub_date_feed_type (ext : ExternalFns) (st : PState) :
    (end_pub_date ext st).feed_type = st.feed_type := by
  unfold end_pub_date; dsimp only; split_ifs <;> rfl

theorem process_end_feed_type (ext : ExternalFns) (st : PState) (name : String) :
    (process_end ext st name).feed_type = st.feed_type := by
  unfold process_end
  split_ifs <;>
    simp [end_item_feed_type, end_entry_feed_type, end_title_feed_type,
      end_link_feed_type, end_description_feed_type, end_content_feed_type,
      end_summary_feed_type, end_author_feed_type, end_pub_date_feed_type,
      end_other]

theorem process_event_feed_type (ext : ExternalFns) (st : PState) (ev : XmlEvent) :
    (process_event ext st ev).feed_type = st.feed_type.or (kind_of_event ev) := by
  cases ev with
  | startTag raw attrs =>
    show (process_start st (local_name raw) attrs).feed_type = _
    rw [process_start_feed_type, detect_feed_type_feed_type]
    rfl
  | emptyTag raw attrs =>
    show (process_empty st (local_name raw) attrs).feed_type = _
    rw [process_empty_feed_type]
    exact Option.or_none.symm
  | textEv s => exact Option.or_none.symm
  | cdataEv s => exact Option.or_none.symm
  | endTag raw =>
    show (process_end ext st (local_name raw)).feed_type = _
    rw [process_end_feed_type]
    exact Option.or_none.symm

theorem foldl_feed_type (ext : ExternalFns) (evs : List XmlEvent) :
    ∀ st : PState,
      (evs.foldl (process_event ext) st).feed_type =
        st.feed_type.or (first_feed_kind_tag evs) := by
  induction evs with
  | nil =>
    intro st
    simp [first_feed_kind_tag, Option.or_none]
  | cons e rest ih =>
    intro st
    rw [List.foldl_cons, ih, process_event_feed_type]
    simp only [first_feed_kind_tag, List.findSome?_cons]
    cases hk : kind_of_event e with
    | some k => cases st.feed_type <;> simp [hk]
    | none => cases st.feed_type <;> simp [hk]

/-! ## Theorem for claim C3 -/

/-- C3: the detected feed kind is exactly the kind of the first start
tag whose local name is `feed` (Atom) or `rss`/`RDF` (RSS) — later tags
never overwrite it — and when no such start tag occurs the whole parse
fails with the error "could not determine feed type". -/
theorem parse_feed_streaming_kind_detection (ext : ExternalFns)
    (events : List XmlEvent) (url : String) :
    (first_feed_kind_tag events = none →
      parse_feed_streaming ext events url =
        .error "could not determine feed type") ∧
    (∀ k, first_feed_kind_tag events = some k →
      ∃ fa, parse_feed_streaming ext events url = .ok fa ∧
        fa.feed.feed_kind = k) ∧
    (∀ fa, parse_feed_streaming ext events url = .ok fa →
      first_feed_kind_tag events = some fa.feed.feed_kind) := by
  have hft : (parse_final ext events).feed_type =
      first_feed_kind_tag events := by
    show (events.foldl (process_event ext) PState.init).feed_type = _
    rw [foldl_feed_type]
    exact Option.none_or
  refine ⟨?_, ?_, ?_⟩
  · intro h
    unfold parse_feed_streaming
    rw [hft, h]
  · intro k h
    unfold parse_feed_streaming
    rw [hft, h]
    exact ⟨_, rfl, rfl⟩
  · intro fa h
    unfold parse_feed_streaming at h
    rw [hft] at h
    cases hk : first_feed_kind_tag events with
    | none => rw [hk] at h; exact absurd h (by simp)
    | some k =>
      rw [hk] at h
      simp only [Except.ok.injEq] at h
      rw [← h]

/-- Witness for C3: a single `<feed>` start tag detects Atom, and the
detected kind of the parse result matches it. -/
theorem parse_feed_streaming_kind_detection_witness :
    parse_feed_streaming extId [XmlEvent.startTag "feed" []] "u" =
      .ok ⟨⟨none, some "u", none, .Atom, none⟩, []⟩ ∧
    first_feed_kind_tag [XmlEvent.startTag "feed" []] = some .Atom :=
  ⟨rfl,
   (parse_feed_streaming_kind_detection extId [XmlEvent.startTag "feed" []]
     "u").2.2 ⟨⟨none, some "u", none, .Atom, none⟩, []⟩ rfl⟩

/-! ## Theorems for claim C5 -/

/-- C5 counterexample: a feed-level (outside item/entry) non-self-closing
`<link href="H">T</link>` stores the accumulated text `T`, not the
captured `href` value `H` — the end-of-`link` handler consults the href
attribute only inside an item/entry, so "the captured href is preferred
over the text" fails for feed-level links. -/
theorem feed_level_link_prefers_text_counterexample :
    parse_feed_streaming extId
      [XmlEvent.startTag "feed" [], XmlEvent.startTag "link" [("href", "H")],
       XmlEvent.textEv "T", XmlEvent.endTag "link", XmlEvent.endTag "feed"]
      "u" =
      .ok ⟨⟨none, some "u", some "T", .Atom, none⟩, []⟩ ∧
    (some "T" : Option String) ≠ some "H" :=
  ⟨rfl, by decide⟩

/-- C5 (amended): at end-of-`link` inside an item/entry the captured
`href` attribute value is preferred over the accumulated text; at feed
level the end-of-`link` handler uses only the accumulated text (the
href attribute reaches the feed link only via self-closing link tags,
handled by the `Empty` event), and in both feed-level paths the very
first value wins — later feed-level link values are ignored. -/
theorem link_extraction_href_entry_level_first_wins (ext : ExternalFns)
    (st : PState) (attrs : List (String × String)) (h : String) :
    ((st.in_item || st.in_entry) = true →
      (process_end ext st "link").current_entry.link =
        (match st.current_link_href with
         | some href => some href
         | none =>
           if st.current_text ≠ "" then some st.current_text
           else st.current_entry.link)) ∧
    ((st.in_item || st.in_entry) = false →
      (process_end ext st "link").feed_link =
        (if st.feed_link = none ∧ st.current_text ≠ "" then
          some st.current_text
         else st.feed_link) ∧
      (process_end ext st "link").current_entry = st.current_entry) ∧
    ((st.in_item || st.in_entry) = false → find_href attrs = some h →
      (process_empty st "link" attrs).feed_link =
        (if st.feed_link = none then some h else st.feed_link)) := by
  have hpe : process_end ext st "link" = end_link st := by
    simp [process_end]
  refine ⟨?_, ?_, ?_⟩
  · intro hin
    rw [hpe]
    cases hc : st.current_link_href with
    | some href => simp [end_link, hin, hc]
    | none =>
      by_cases ht : st.current_text = ""
      · simp [end_link, hin, hc, ht]
      · simp [end_link, hin, hc, ht]
  · intro hin
    constructor
    · rw [hpe]
      by_cases hf : st.feed_link = none
      · by_cases ht : st.current_text = ""
        · simp [end_link, hin, hf, ht]
        · simp [end_link, hin, hf, ht]
      · simp [end_link, hin, hf]
    · rw [hpe]
      unfold end_link
      dsimp only
      rw [if_neg (by simp [hin])]
      split_ifs <;> rfl
  · intro hin hfind
    by_cases hf : st.feed_link = none
    · simp [process_empty, hfind, hin, hf]
    · simp [process_empty, hfind, hin, hf]

/-- Witness for C5's amended theorem: inside an entry the href `H` beats
the text `T`; at feed level, with no feed link yet, the text `T` is
stored. -/
theorem link_extraction_href_entry_level_first_wins_witness :
    (process_end extId { PState.init with in_entry := true, current_text := "T", current_link_href := some "H" } "link").current_entry.link =
      some "H" ∧
    (process_end extId
      { PState.init with current_text := "T" } "link").feed_link =
      some "T" := by
  constructor
  · have := (link_extraction_href_entry_level_first_wins extId
      { PState.init with in_entry := true, current_text := "T", current_link_href := some "H" } [] "h").1 rfl
    simpa using this
  · have := ((link_extraction_href_entry_level_first_wins extId
      { PState.init with current_text := "T" } [] "h").2.1 rfl).1
    simpa using this

/-! ## Shared lemma: `contains` on lists of links -/

theorem list_contains_true_iff (l : List String) (a : String) :
    l.contains a = true ↔ a ∈ l :=
  List.elem_iff

theorem except_bind_ok {α β : Type} (a : α) (f : α → Except String β) :
    (Except.ok a >>= f : Except String β) = f a :=
  rfl

theorem except_bind_error {α β : Type} (e : String)
    (f : α → Except String β) :
    (Except.error e >>= f : Except String β) = .error e :=
  rfl

/-! ## Theorem for claim C1 -/

/-- C1: on a CacheMiss refresh the inserted entries are exactly the
fetched entries whose link lies in (remote links) minus (links stored
for the feed across all read states): an entry whose link already
exists locally is never inserted regardless of its other fields, an
entry with no link is never inserted, and the CacheMiss branch of
`refresh_feed` inserts precisely `refresh_items_to_add` of the fetched
entries against `get_entries_links` under `ReadMode.All`. -/
theorem refresh_inserts_exactly_new_links :
    (∀ (remote : List IncomingEntry) (locals : List (Option String))
        (e : IncomingEntry),
      e ∈ refresh_items_to_add remote locals ↔
        (e ∈ remote ∧ ∃ l, e.link = some l ∧ l ∉ locals.filterMap id)) ∧
    (∀ (remote : List IncomingEntry) (locals : List (Option String))
        (e : IncomingEntry), e.link = none →
      e ∉ refresh_items_to_add remote locals) ∧
    (∀ (remote : List IncomingEntry) (locals : List (Option String))
        (e : IncomingEntry) (l : String), e.link = some l → some l ∈ locals →
      e ∉ refresh_items_to_add remote locals) ∧
    (∀ (ext : ExternalFns) (net : String → Option String → HttpResponse)
        (db : DB) (now : Int) (fid : Int) (url : String)
        (etag : Option String) (fa : FeedAndEntries),
      get_feed_url db fid = .ok url →
      get_feed_latest_etag db fid = .ok etag →
      fetch_feed ext (net url etag) url = .ok (.CacheMiss fa) →
      refresh_feed ext net db now fid = .ok
        (prune_old_entries_for_feed
          (update_feed_etag
            (update_feed_refreshed_at
              (add_entries_to_feed db fid
                (refresh_items_to_add fa.entries
                  (get_entries_links db .All fid)) now)
              fid now)
            fid fa.feed.latest_etag)
          fid ENTRY_RETENTION_DAYS now)) := by
  have hmem : ∀ (remote : List IncomingEntry) (locals : List (Option String))
      (e : IncomingEntry),
      e ∈ refresh_items_to_add remote locals ↔
        (e ∈ remote ∧ ∃ l, e.link = some l ∧ l ∉ locals.filterMap id) := by
    intro remote locals e
    simp only [refresh_items_to_add]
    rw [List.mem_filter]
    constructor
    · rintro ⟨hm, hp⟩
      refine ⟨hm, ?_⟩
      cases hel : e.link with
      | none => rw [hel] at hp; simp at hp
      | some l =>
        rw [hel] at hp
        have hd := (list_contains_true_iff _ _).mp hp
        have hd2 := List.mem_filter.mp hd
        refine ⟨l, rfl, ?_⟩
        intro hbad
        have : (locals.filterMap id).contains l = true :=
          (list_contains_true_iff _ _).mpr hbad
        rw [this] at hd2
        simp at hd2
    · rintro ⟨hm, l, hel, hnot⟩
      refine ⟨hm, ?_⟩
      rw [hel]
      apply (list_contains_true_iff _ _).mpr
      apply List.mem_filter.mpr
      refine ⟨List.mem_filterMap.mpr ⟨e, hm, hel⟩, ?_⟩
      simp only [Bool.not_eq_true']
      rw [← Bool.not_eq_true]
      intro hbad
      exact hnot ((list_contains_true_iff _ _).mp hbad)
  refine ⟨hmem, ?_, ?_, ?_⟩
  · intro remote locals e hel hbad
    rcases ((hmem remote locals e).mp hbad).2 with ⟨l, hl, _⟩
    rw [hel] at hl
    cases hl
  · intro remote locals e l hel hloc hbad
    rcases ((hmem remote locals e).mp hbad).2 with ⟨l2, hl2, hnot⟩
    rw [hel] at hl2
    cases hl2
    exact hnot (List.mem_filterMap.mpr ⟨some l, hloc, rfl⟩)
  · intro ext net db now fid url etag fa h1 h2 h3
    simp only [refresh_feed, h1, h2, except_bind_ok, h3, in_transaction]

/-- Witness for C1: a feed with one stored entry (link `L1`) refreshed
against a remote document carrying `L1` and `L2` inserts only the `L2`
entry, then updates and prunes. -/
theorem refresh_inserts_exactly_new_links_witness :
    refresh_feed extId
      (fun _ _ => ⟨200, [],
        [XmlEvent.startTag "rss" [], XmlEvent.startTag "item" [],
         XmlEvent.startTag "link" [], XmlEvent.textEv "L1",
         XmlEvent.endTag "link", XmlEvent.endTag "item",
         XmlEvent.startTag "item" [], XmlEvent.startTag "link" [],
         XmlEvent.textEv "L2", XmlEvent.endTag "link",
         XmlEvent.endTag "item", XmlEvent.endTag "rss"]⟩)
      ⟨[⟨1, some "t", some "u", none, .Rss, none, 0, 0, none⟩],
       [⟨1, 1, none, none, none, none, none, some "L1", none, 0, 0⟩], 2, 2⟩
      0 1 = .ok
        (prune_old_entries_for_feed
          (update_feed_etag
            (update_feed_refreshed_at
              (add_entries_to_feed
                ⟨[⟨1, some "t", some "u", none, .Rss, none, 0, 0, none⟩],
                 [⟨1, 1, none, none, none, none, none, some "L1", none, 0, 0⟩],
                 2, 2⟩
                1
                (refresh_items_to_add
                  [⟨none, none, none, none, none, some "L1"⟩,
                   ⟨none, none, none, none, none, some "L2"⟩]
                  (get_entries_links
                    ⟨[⟨1, some "t", some "u", none, .Rss, none, 0, 0, none⟩],
                     [⟨1, 1, none, none, none, none, none, some "L1", none, 0,
                       0⟩], 2, 2⟩
                    .All 1)) 0)
              1 0)
            1 none)
          1 ENTRY_RETENTION_DAYS 0) :=
  refresh_inserts_exactly_new_links.2.2.2 extId
    (fun _ _ => ⟨200, [],
      [XmlEvent.startTag "rss" [], XmlEvent.startTag "item" [],
       XmlEvent.startTag "link" [], XmlEvent.textEv "L1",
       XmlEvent.endTag "link", XmlEvent.endTag "item",
       XmlEvent.startTag "item" [], XmlEvent.startTag "link" [],
       XmlEvent.textEv "L2", XmlEvent.endTag "link",
       XmlEvent.endTag "item", XmlEvent.endTag "rss"]⟩)
    ⟨[⟨1, some "t", some "u", none, .Rss, none, 0, 0, none⟩],
     [⟨1, 1, none, none, none, none, none, some "L1", none, 0, 0⟩], 2, 2⟩
    0 1 "u" none
    ⟨⟨none, some "u", none, .Rss, none⟩,
     [⟨none, none, none, none, none, some "L1"⟩,
      ⟨none, none, none, none, none, some "L2"⟩]⟩
    rfl rfl rfl

/-! ## Theorem for claim C6 -/

/-- C6: retention pruning removes, for the given feed only, exactly the
entries whose `COALESCE(pub_date, inserted_at)` is before now minus the
retention window, leaving newer entries of the feed and every entry of
other feeds untouched (and the feeds table unchanged); it is the final
step of both refresh branches (CacheMiss and CacheHit); a successful
subscribe only appends entry rows, so no pre-existing entry is ever
deleted by subscribe. -/
theorem retention_pruning_spec :
    (∀ (db : DB) (fid : Int) (d : Nat) (now : Int) (e : EntryRow),
      e ∈ (prune_old_entries_for_feed db fid d now).entries ↔
        (e ∈ db.entries ∧
          ¬(e.feed_id = fid ∧
            e.pub_date.getD e.inserted_at < retention_cutoff now d))) ∧
    (∀ (db : DB) (fid : Int) (d : Nat) (now : Int),
      (prune_old_entries_for_feed db fid d now).feeds = db.feeds) ∧
    (∀ (ext : ExternalFns) (net : String → Option String → HttpResponse)
        (db : DB) (now : Int) (fid : Int) (url : String)
        (etag : Option String) (fa : FeedAndEntries),
      get_feed_url db fid = .ok url →
      get_feed_latest_etag db fid = .ok etag →
      fetch_feed ext (net url etag) url = .ok (.CacheMiss fa) →
      refresh_feed ext net db now fid = .ok
        (prune_old_entries_for_feed
          (update_feed_etag
            (update_feed_refreshed_at
              (add_entries_to_feed db fid
                (refresh_items_to_add fa.entries
                  (get_entries_links db .All fid)) now)
              fid now)
            fid fa.feed.latest_etag)
          fid ENTRY_RETENTION_DAYS now)) ∧
    (∀ (ext : ExternalFns) (net : String → Option String → HttpResponse)
        (db : DB) (now : Int) (fid : Int) (url : String)
        (etag : Option String),
      get_feed_url db fid = .ok url →
      get_feed_latest_etag db fid = .ok etag →
      fetch_feed ext (net url etag) url = .ok .CacheHit →
      refresh_feed ext net db now fid = .ok
        (prune_old_entries_for_feed (update_feed_refreshed_at db fid now) fid
          ENTRY_RETENTION_DAYS now)) ∧
    (∀ (ext : ExternalFns) (net : String → Option String → HttpResponse)
        (db : DB) (now : Int) (url : String) (fid2 : Int) (db2 : DB),
      subscribe_to_feed ext net db now url = .ok (fid2, db2) →
      ∃ newRows, db2.entries = db.entries ++ newRows) := by
  refine ⟨?_, fun db fid d now => rfl, ?_, ?_, ?_⟩
  · intro db fid d now e
    simp only [prune_old_entries_for_feed, List.mem_filter,
      Bool.not_eq_true', Bool.and_eq_false_iff, beq_eq_false_iff_ne,
      decide_eq_false_iff_not, ne_eq, not_and]
    constructor
    · rintro ⟨hm, hp⟩
      exact ⟨hm, fun hfe hlt => by rcases hp with h | h <;> [exact h hfe; exact h hlt]⟩
    · rintro ⟨hm, hp⟩
      refine ⟨hm, ?_⟩
      by_cases hfe : e.feed_id = fid
      · exact Or.inr (hp hfe)
      · exact Or.inl hfe
  · intro ext net db now fid url etag fa h1 h2 h3
    simp only [refresh_feed, h1, h2, except_bind_ok, h3, in_transaction]
  · intro ext net db now fid url etag h1 h2 h3
    simp only [refresh_feed, h1, h2, except_bind_ok, h3, in_transaction]
  · intro ext net db now url fid2 db2 h
    unfold subscribe_to_feed at h
    cases hr : fetch_feed ext (net url none) url with
    | error e =>
      rw [hr] at h
      exact absurd h (by simp [except_bind_error])
    | ok resp =>
      rw [hr, except_bind_ok] at h
      cases resp with
      | CacheHit => simp at h
      | CacheMiss fa =>
        cases hc : create_feed db fa.feed now with
        | error e2 =>
          simp only [in_transaction, hc, except_bind_error] at h
          exact absurd h (by simp)
        | ok pair =>
          obtain ⟨d2, fid'⟩ := pair
          simp only [in_transaction, hc, except_bind_ok] at h
          simp only [Except.ok.injEq, Prod.mk.injEq] at h
          obtain ⟨hfid, hdb2⟩ := h
          have hd2 : d2.entries = db.entries := by
            unfold create_feed at hc
            dsimp only at hc
            split at hc
            · simp at hc
            · simp only [Except.ok.injEq, Prod.mk.injEq] at hc
              rw [← hc.1]
          refine ⟨fa.entries.enum.map
            (fun p => entry_row_of fid' now (d2.next_entry_id + p.1) p.2), ?_⟩
          rw [← hdb2]
          show (add_entries_to_feed d2 fid' fa.entries now).entries =
            db.entries ++ _
          simp only [add_entries_to_feed]
          rw [hd2]

/-- Witness for C6: a 304 refresh of a concrete one-feed database
updates `refreshed_at` and prunes. -/
theorem retention_pruning_spec_witness :
    refresh_feed extId (fun _ _ => ⟨304, [], []⟩)
      ⟨[⟨1, some "t", some "u", none, .Rss, none, 0, 0, none⟩],
       [⟨1, 1, none, none, none, none, none, some "L1", none, 0, 0⟩], 2, 2⟩
      0 1 = .ok
        (prune_old_entries_for_feed
          (update_feed_refreshed_at
            ⟨[⟨1, some "t", some "u", none, .Rss, none, 0, 0, none⟩],
             [⟨1, 1, none, none, none, none, none, some "L1", none, 0, 0⟩],
             2, 2⟩ 1 0)
          1 ENTRY_RETENTION_DAYS 0) :=
  retention_pruning_spec.2.2.2.1 extId (fun _ _ => ⟨304, [], []⟩)
    ⟨[⟨1, some "t", some "u", none, .Rss, none, 0, 0, none⟩],
     [⟨1, 1, none, none, none, none, none, some "L1", none, 0, 0⟩], 2, 2⟩
    0 1 "u" none rfl rfl rfl

/-! ## Theorem for claim C7 -/

/-- C7: subscribe fetches with no ETag (its outcome depends on the
network only through the ETag-less request); a CacheHit answer makes it
fail with the logic-error message; on a CacheMiss it creates the feed
row and bulk-inserts all parsed entries inside one transaction and
returns the new feed's id (the next AUTOINCREMENT id); a failure inside
the transaction is propagated (and, the connection state being returned
only on success, nothing is committed). -/
theorem subscribe_no_etag_semantics :
    (∀ (ext : ExternalFns)
        (net net2 : String → Option String → HttpResponse) (db : DB)
        (now : Int) (url : String),
      net url none = net2 url none →
      subscribe_to_feed ext net db now url =
        subscribe_to_feed ext net2 db now url) ∧
    (∀ (ext : ExternalFns) (net : String → Option String → HttpResponse)
        (db : DB) (now : Int) (url : String),
      fetch_feed ext (net url none) url = .ok .CacheHit →
      subscribe_to_feed ext net db now url =
        .error "Did not expect feed to be cached in this instance as we did not pass an etag") ∧
    (∀ (ext : ExternalFns) (net : String → Option String → HttpResponse)
        (db : DB) (now : Int) (url : String) (fa : FeedAndEntries)
        (db2 : DB) (fid : Int),
      fetch_feed ext (net url none) url = .ok (.CacheMiss fa) →
      create_feed db fa.feed now = .ok (db2, fid) →
      subscribe_to_feed ext net db now url =
        .ok (fid, add_entries_to_feed db2 fid fa.entries now) ∧
      fid = db.next_feed_id) ∧
    (∀ (ext : ExternalFns) (net : String → Option String → HttpResponse)
        (db : DB) (now : Int) (url : String) (fa : FeedAndEntries)
        (e : String),
      fetch_feed ext (net url none) url = .ok (.CacheMiss fa) →
      create_feed db fa.feed now = .error e →
      subscribe_to_feed ext net db now url = .error e) := by
  refine ⟨?_, ?_, ?_, ?_⟩
  · intro ext net net2 db now url h
    simp only [subscribe_to_feed, h]
  · intro ext net db now url h
    simp only [subscribe_to_feed, h, except_bind_ok]
  · intro ext net db now url fa db2 fid h hc
    constructor
    · simp only [subscribe_to_feed, h, except_bind_ok, in_transaction, hc]
    · unfold create_feed at hc
      dsimp only at hc
      split at hc
      · simp at hc
      · simp only [Except.ok.injEq, Prod.mk.injEq] at hc
        exact hc.2.symm
  · intro ext net db now url fa e h hc
    simp only [subscribe_to_feed, h, except_bind_ok, in_transaction, hc,
      except_bind_error]

/-- Witness for C7: a server replying 304 to the ETag-less subscribe
fetch makes subscribe fail with the logic error. -/
theorem subscribe_no_etag_semantics_witness :
    subscribe_to_feed extId (fun _ _ => ⟨304, [], []⟩) ⟨[], [], 1, 1⟩ 0 "u" =
      .error "Did not expect feed to be cached in this instance as we did not pass an etag" :=
  subscribe_no_etag_semantics.2.1 extId (fun _ _ => ⟨304, [], []⟩)
    ⟨[], [], 1, 1⟩ 0 "u" rfl

/-! ## Theorem for claim C8 -/

theorem find_map_id_pred (l : List EntryRow) (p : EntryRow → Bool)
    (f : EntryRow → EntryRow) (hf : ∀ e, p (f e) = p e) :
    (l.map f).find? p = (l.find? p).map f := by
  induction l with
  | nil => rfl
  | cons a t ih =>
    rw [List.map_cons, List.find?_cons, List.find?_cons, hf a]
    cases hpa : p a <;> simp [hpa, ih]

/-- C8: starting from an unread entry (unique row id), toggling read
state twice — mark read, refetch the metadata, mark unread — restores
the database exactly, so `read_at` is `None` again and the feed's unread
count equals the count before either operation. -/
theorem toggle_read_twice_roundtrip :
    ∀ (db : DB) (eid now now2 : Int) (meta meta2 : EntryMetadata),
      (db.entries.map (fun e => e.id)).Nodup →
      get_entry_meta db eid = .ok meta →
      meta.read_at = none →
      get_entry_meta (toggle_read meta db now) eid = .ok meta2 →
      toggle_read meta2 (toggle_read meta db now) now2 = db ∧
      get_entry_meta (toggle_read meta2 (toggle_read meta db now) now2) eid =
        .ok meta ∧
      count_unread_entries (toggle_read meta2 (toggle_read meta db now) now2)
          meta.feed_id =
        count_unread_entries db meta.feed_id := by
  intro db eid now now2 meta meta2 hnodup hget hunread hget2
  unfold get_entry_meta at hget
  cases hfind : db.entries.find? (fun e => e.id == eid) with
  | none => rw [hfind] at hget; exact absurd hget (by simp)
  | some e0 =>
    rw [hfind] at hget
    simp only [Except.ok.injEq] at hget
    have he0id : e0.id = eid := by
      have := List.find?_some hfind
      simpa using this
    have hmid : meta.id = eid := by rw [← hget]; exact he0id
    have he0read : e0.read_at = none := by rw [← hget] at hunread; exact hunread
    have hdb1 : toggle_read meta db now = mark_as_read db eid now := by
      simp [toggle_read, hunread, hmid]
    have hf1p : ∀ e : EntryRow,
        ((if e.id = eid then { e with read_at := some now } else e).id == eid)
          = (e.id == eid) := by
      intro e
      by_cases h : e.id = eid <;> simp [h]
    have hfind1 : (mark_as_read db eid now).entries.find?
        (fun e => e.id == eid) = some { e0 with read_at := some now } := by
      unfold mark_as_read
      dsimp only
      rw [find_map_id_pred _ _ _ hf1p, hfind]
      simp [he0id]
    have hmeta2 : meta2 = entry_metadata_of_row { e0 with read_at := some now } := by
      rw [hdb1] at hget2
      unfold get_entry_meta at hget2
      rw [hfind1] at hget2
      simpa using hget2.symm
    have hm2read : meta2.read_at = some now := by rw [hmeta2]; rfl
    have hm2id : meta2.id = eid := by rw [hmeta2]; exact he0id
    have hdb2 : toggle_read meta2 (toggle_read meta db now) now2 =
        mark_as_unread (mark_as_read db eid now) eid := by
      rw [hdb1]
      simp [toggle_read, hm2read, hm2id]
    have hrow : ({ e0 with read_at := none } : EntryRow) = e0 := by
      obtain ⟨i, fi, t, a, p, d, c, l, r, ins, u⟩ := e0
      dsimp only at he0read
      rw [he0read]
    have hkey : ∀ e ∈ db.entries, e.id = eid → e = e0 := by
      intro e hme hide
      exact List.inj_on_of_nodup_map hnodup hme
        (List.mem_of_find?_eq_some hfind) (by rw [hide, he0id])
    have hround : mark_as_unread (mark_as_read db eid now) eid = db := by
      unfold mark_as_unread mark_as_read
      dsimp only
      rw [List.map_map]
      have hid : ∀ e ∈ db.entries,
          ((fun e => if e.id = eid then { e with read_at := none } else e) ∘
            (fun e => if e.id = eid then { e with read_at := some now } else e))
            e = e := by
        intro e hme
        by_cases h : e.id = eid
        · have he : e = e0 := hkey e hme h
          subst he
          simp only [Function.comp_apply]
          rw [if_pos h,
            if_pos (show ({ e with read_at := some now } : EntryRow).id = eid from h)]
          exact hrow
        · simp only [Function.comp_apply]
          rw [if_neg h, if_neg h]
      rw [List.map_congr_left hid, List.map_id']
    refine ⟨?_, ?_, ?_⟩
    · rw [hdb2, hround]
    · rw [hdb2, hround]
      unfold get_entry_meta
      rw [hfind]
      simp [hget]
    · rw [hdb2, hround]

/-- Witness for C8 on a one-entry database: read-then-unread restores
the database. -/
theorem toggle_read_twice_roundtrip_witness :
    toggle_read ⟨1, 1, none, none, none, some 5, 0⟩
      (toggle_read ⟨1, 1, none, none, none, none, 0⟩
        ⟨[], [⟨1, 1, none, none, none, none, none, none, none, 0, 0⟩], 1, 2⟩ 5)
      9 =
      ⟨[], [⟨1, 1, none, none, none, none, none, none, none, 0, 0⟩], 1, 2⟩ :=
  (toggle_read_twice_roundtrip
    ⟨[], [⟨1, 1, none, none, none, none, none, none, none, 0, 0⟩], 1, 2⟩
    1 5 9 ⟨1, 1, none, none, none, none, 0⟩ ⟨1, 1, none, none, none, some 5, 0⟩
    (by decide) rfl rfl rfl).1

end RssTui
